import Mathlib

/-!
Shallow embedding of peek.c, a terminal-resident directory browser, together
with theorems settling the specification claims about it.

Strings are modelled as lists of bytes (`List Nat`, each element < 256 in
practice), matching the byte-oriented C code.  Fatal exits (the CHECKBAD
macro) are modelled by `Option`: `none` means the process terminated.
-/

namespace Peek

/-- Byte constant for the ESC character. -/
def ESC : Nat := 0x1B

/-- PATH_MAX as used by the CHECKBAD length test in append_to_cd. -/
def PATH_MAX : Nat := 4096

/-- Length of ENTRY_DELIM, the two-space delimiter printed after each entry. -/
def ENTRY_DELIM_LEN : Nat := 2

/-- Bytes of MSG_CANT_SCAN, the marker "/could not scan/". -/
def MSG_CANT_SCAN : List Nat :=
  [47, 99, 111, 117, 108, 100, 32, 110, 111, 116, 32, 115, 99, 97, 110, 47]

/-- Bytes of MSG_EMPTY, the marker "/empty/". -/
def MSG_EMPTY : List Nat := [47, 101, 109, 112, 116, 121, 47]

/-- The four scanning states of the goto-based loop in get_cursor_pos:
seeking ESC, seeking the bracket, reading row digits, reading column digits. -/
inductive ScanState where
  | seekEsc
  | seekBracket
  | readRow
  | readCol
deriving DecidableEq

/-- The scanning loop of get_cursor_pos (peek.c lines 185-199).  One byte is
consumed per step.  A byte that breaks the grammar sends the scanner back to
the seekEsc state (the goto scan_for_esc in the C source); note that the
row/column accumulators are initialised once at entry and are not reset by a
restart, exactly as in the C code.  An exhausted stream yields none (the C
code would block forever waiting for more bytes). -/
def scan_response : List Nat → ScanState → Nat → Nat → Option (Nat × Nat)
  | [], _, _, _ => none
  | c :: rest, ScanState.seekEsc, row, col =>
      if c = ESC then scan_response rest ScanState.seekBracket row col
      else scan_response rest ScanState.seekEsc row col
  | c :: rest, ScanState.seekBracket, row, col =>
      if c = 0x5B then scan_response rest ScanState.readRow row col
      else scan_response rest ScanState.seekEsc row col
  | c :: rest, ScanState.readRow, row, col =>
      if c = 0x3B then scan_response rest ScanState.readCol row col
      else if 0x30 ≤ c ∧ c ≤ 0x39 then
        scan_response rest ScanState.readRow (row * 10 + (c - 0x30)) col
      else scan_response rest ScanState.seekEsc row col
  | c :: rest, ScanState.readCol, row, col =>
      if c = 0x52 then some (row, col)
      else if 0x30 ≤ c ∧ c ≤ 0x39 then
        scan_response rest ScanState.readCol row (col * 10 + (c - 0x30))
      else scan_response rest ScanState.seekEsc row col

/-- get_cursor_pos (peek.c lines 169-200): scan the input byte stream for a
cursor-position report ESC [ digits ; digits R and return (row, col). -/
def get_cursor_pos (input : List Nat) : Option (Nat × Nat) :=
  scan_response input ScanState.seekEsc 0 0

lemma scan_skip_noise (noise : List Nat) (h : ∀ b ∈ noise, b ≠ ESC) :
    ∀ (s : List Nat) (row col : Nat),
      scan_response (noise ++ s) ScanState.seekEsc row col =
        scan_response s ScanState.seekEsc row col := by
  induction noise with
  | nil => intro s row col; rfl
  | cons c cs ih =>
      intro s row col
      have hc : c ≠ ESC := h c (List.mem_cons_self c cs)
      have hcs : ∀ b ∈ cs, b ≠ ESC := fun b hb => h b (List.mem_cons_of_mem c hb)
      simp only [List.cons_append, scan_response, if_neg hc]
      exact ih hcs s row col

/-- C2: the cursor-position parser tolerates noise.  (a) Any prefix free of
ESC bytes is discarded without affecting the result; (b) a non-bracket byte
after ESC, a non-digit non-semicolon byte while reading the row, and a
non-digit non-R byte while reading the column each restart the scan in the
seekEsc state; (c) concretely, the stream "garbage" ++ ESC ++ "[12;34R"
parses to row 12, column 34. -/
theorem C2_parser_recovers :
    (∀ (noise s : List Nat), (∀ b ∈ noise, b ≠ ESC) →
      get_cursor_pos (noise ++ s) = get_cursor_pos s) ∧
    (∀ (c : Nat) (rest : List Nat) (row col : Nat), c ≠ 0x5B →
      scan_response (c :: rest) ScanState.seekBracket row col =
        scan_response rest ScanState.seekEsc row col) ∧
    (∀ (c : Nat) (rest : List Nat) (row col : Nat),
      c ≠ 0x3B → ¬ (0x30 ≤ c ∧ c ≤ 0x39) →
      scan_response (c :: rest) ScanState.readRow row col =
        scan_response rest ScanState.seekEsc row col) ∧
    (∀ (c : Nat) (rest : List Nat) (row col : Nat),
      c ≠ 0x52 → ¬ (0x30 ≤ c ∧ c ≤ 0x39) →
      scan_response (c :: rest) ScanState.readCol row col =
        scan_response rest ScanState.seekEsc row col) ∧
    get_cursor_pos
      ([103, 97, 114, 98, 97, 103, 101] ++ ESC ::
        [0x5B, 0x31, 0x32, 0x3B, 0x33, 0x34, 0x52]) = some (12, 34) := by
  refine ⟨?_, ?_, ?_, ?_, ?_⟩
  · intro noise s h
    exact scan_skip_noise noise h s 0 0
  · intro c rest row col hc
    simp only [scan_response, if_neg hc]
  · intro c rest row col hc hd
    simp only [scan_response, if_neg hc, if_neg hd]
  · intro c rest row col hc hd
    simp only [scan_response, if_neg hc, if_neg hd]
  · decide

/-- Witness for C2 at concrete inputs: the noise-discarding part applied to
the noise [120] and stream [ESC, 0x5B, 0x31, 0x3B, 0x32, 0x52]. -/
theorem C2_parser_recovers_witness :
    get_cursor_pos ([120] ++ [ESC, 0x5B, 0x31, 0x3B, 0x32, 0x52]) =
      get_cursor_pos [ESC, 0x5B, 0x31, 0x3B, 0x32, 0x52] :=
  C2_parser_recovers.1 [120] [ESC, 0x5B, 0x31, 0x3B, 0x32, 0x52]
    (by decide)

/-- The configuration flags of peek.c (cfg_show_dotfiles, cfg_color,
cfg_clear_trace, cfg_show_dir, cfg_indicate, cfg_print_hex). -/
structure Config where
  show_dotfiles : Bool
  color : Bool
  clear_trace : Bool
  show_dir : Bool
  indicate : Bool
  print_hex : Bool
deriving DecidableEq

/-- A directory entry as seen by display: its name as a byte list, its
d_type value, and the result of the access(path, X_OK) probe that
get_entry_type performs when d_type carries no color or indicator. -/
structure Dirent where
  d_name : List Nat
  d_type : Nat
  exec_probe : Bool
deriving DecidableEq

instance : Inhabited Dirent := ⟨⟨[], 0, false⟩⟩

/-- The colors table of get_entry_type, indexed by d_type: FIFO, CHR, DIR,
BLK, LNK and SOCK have colors, everything else is the null pointer.  The
color values are the bytes of the escape sequences. -/
def type_color : Nat → Option (List Nat)
  | 1 => some [ESC, 0x5B, 0x33, 0x33, 0x6D]
  | 2 => some [ESC, 0x5B, 0x33, 0x33, 0x3B, 0x31, 0x6D]
  | 4 => some [ESC, 0x5B, 0x33, 0x34, 0x3B, 0x31, 0x6D]
  | 6 => some [ESC, 0x5B, 0x33, 0x33, 0x3B, 0x31, 0x6D]
  | 10 => some [ESC, 0x5B, 0x33, 0x36, 0x3B, 0x31, 0x6D]
  | 12 => some [ESC, 0x5B, 0x33, 0x35, 0x3B, 0x31, 0x6D]
  | _ => none

/-- The indicators table of get_entry_type, indexed by d_type:
FIFO gets a pipe, DIR a slash, LNK an at sign, SOCK an equals sign;
0 plays the role of the NUL meaning no indicator. -/
def type_indicator : Nat → Nat
  | 1 => 0x7C
  | 4 => 0x2F
  | 10 => 0x40
  | 12 => 0x3D
  | _ => 0

/-- get_entry_type (peek.c lines 123-157): use the d_type tables when d_type
is in range and has a color or indicator; otherwise fall back to the
executable probe, which yields the green color and a star indicator when the
entry is executable and nothing otherwise. -/
def get_entry_type (e : Dirent) : Option (List Nat) × Nat :=
  if 0 < e.d_type ∧ e.d_type ≤ 12 ∧
      ((type_color e.d_type).isSome = true ∨ type_indicator e.d_type ≠ 0) then
    (type_color e.d_type, type_indicator e.d_type)
  else if e.exec_probe then
    (some [ESC, 0x5B, 0x33, 0x32, 0x3B, 0x31, 0x6D], 0x2A)
  else (none, 0)

/-- display_filter (peek.c lines 159-166): names starting with a dot are
hidden unless cfg_show_dotfiles is set, and the literal names "." and ".."
are always hidden. -/
def display_filter (cfg : Config) (e : Dirent) : Bool :=
  match e.d_name with
  | [] => true
  | c :: rest =>
    if c = 0x2E then
      if cfg.show_dotfiles = false then false
      else
        match rest with
        | [] => false
        | c2 :: rest2 => if c2 = 0x2E ∧ rest2 = [] then false else true
    else true

/-- Byte-wise string comparison, true when a sorts no later than b: the
behavior of alphasort under the byte-wise (C locale) collation. -/
def strcmpLe : List Nat → List Nat → Bool
  | [], _ => true
  | _ :: _, [] => false
  | a :: as, b :: bs => if a < b then true else if b < a then false else strcmpLe as bs

/-- Insert an entry into a list sorted by strcmpLe on names. -/
def insertSorted (e : Dirent) : List Dirent → List Dirent
  | [] => [e]
  | f :: fs => if strcmpLe e.d_name f.d_name then e :: f :: fs else f :: insertSorted e fs

/-- Sort entries by byte-wise name comparison, the order scandir produces
with alphasort. -/
def sortEntries : List Dirent → List Dirent
  | [] => []
  | e :: es => insertSorted e (sortEntries es)

/-- The filtered, sorted entry list that scandir with display_filter and
alphasort produces from the raw directory contents; none models a failed
scandir (return value -1). -/
def scan_result (cfg : Config) (raw : Option (List Dirent)) : Option (List Dirent) :=
  raw.map fun l => sortEntries (l.filter (display_filter cfg))

/-- A byte is printable for display purposes when it is above the control
characters and is not DEL (peek.c line 285). -/
def printable (b : Nat) : Bool := decide (0x1F < b ∧ b ≠ 0x7F)

/-- Number of terminal cells the per-byte printing loop adds to print_count
for one name: printable bytes count 1, unprintable bytes count 4 when
cfg_print_hex is set (the /XX/ escape) and 0 otherwise. -/
def printed_name_width (cfg : Config) (name : List Nat) : Nat :=
  (name.map fun b => if printable b then 1 else if cfg.print_hex then 4 else 0).sum

/-- The line-wrap test of display (peek.c line 275): a newline is emitted
before an entry exactly when print_count + name length + delimiter length
+ 1 reaches the column count; the + 1 is unconditional, reserved for an
indicator whether or not indicators are enabled. -/
def wrap_break (print_count cols name_len : Nat) : Bool :=
  decide (print_count + name_len + ENTRY_DELIM_LEN + 1 ≥ cols)

/-- The mutable state of peek.c that survives between renders:
d_current_name (with its length implicit), d_length, selected,
selected_name, and last_overflow_count. -/
structure PeekState where
  d_current_name : List Nat
  d_length : Int
  selected : Int
  selected_name : List Nat
  last_overflow_count : Nat
deriving DecidableEq

/-- What display emitted for one entry: its name, whether it was drawn
highlighted (inverse video), whether a line break was emitted just before
it, and its indicator byte (0 when none). -/
structure EntryRender where
  name : List Nat
  highlighted : Bool
  brokeBefore : Bool
  indicator : Nat
deriving DecidableEq

/-- The observable output of one render pass. -/
structure RenderOut where
  message : Option (List Nat)
  entries : List EntryRender
  newline_count : Nat
  final_print_count : Nat
  overflow : Nat
deriving DecidableEq

/-- The accumulator of the entry-printing loop of display. -/
structure LoopAcc where
  print_count : Nat
  newline_count : Nat
  selected_name : List Nat
  rendered : List EntryRender
deriving DecidableEq

/-- One iteration of the entry loop of display (peek.c lines 255-304):
copy the name into selected_name when this is the selected entry, emit a
newline first when the wrap test fires, then account for the printed name,
the optional indicator and the delimiter. -/
def render_entry (cfg : Config) (cols sel : Nat) (acc : LoopAcc) (i : Nat)
    (e : Dirent) : LoopAcc :=
  let ind := (get_entry_type e).2
  let isSel := i = sel
  let selname := if isSel then e.d_name else acc.selected_name
  let brk := wrap_break acc.print_count cols e.d_name.length
  let pc0 := if brk then 0 else acc.print_count
  let nl := if brk then acc.newline_count + 1 else acc.newline_count
  let pc1 := pc0 + printed_name_width cfg e.d_name +
    (if cfg.indicate = true ∧ ind ≠ 0 then 1 else 0) + ENTRY_DELIM_LEN
  { print_count := pc1, newline_count := nl, selected_name := selname,
    rendered := acc.rendered ++
      [{ name := e.d_name, highlighted := isSel, brokeBefore := brk, indicator := ind }] }

/-- The entry loop of display, iterating render_entry over the entries with
their indices. -/
def render_loop (cfg : Config) (cols sel : Nat) :
    List Dirent → Nat → LoopAcc → LoopAcc
  | [], _, acc => acc
  | e :: es, i, acc => render_loop cfg cols sel es (i + 1) (render_entry cfg cols sel acc i e)

/-- The selection-validation step of display (peek.c lines 225-229):
with fewer than one entry the selection is pinned to 0; a negative
selection wraps to the last index; a selection past the last index wraps
to 0. -/
def clamp_selected (sel d_length : Int) : Int :=
  if d_length < 1 then 0
  else if sel < 0 then d_length - 1
  else if sel > d_length - 1 then 0
  else sel

/-- display (peek.c lines 202-319).  Inputs: the configuration, the terminal
column count, the raw directory contents (none when scandir fails), whether
the vestigial opendir call succeeds, and the current state.  Output: none
when the CHECKBAD on opendir terminates the process, otherwise the updated
state paired with the render output.  print_count starts from the header
printf when cfg_show_dir is set (whose return value counts the 13 bytes of
escape sequences and the colon-space around the path) and from the marker
printf when the directory is unreadable (16 + 4 bytes) or empty
(7 + 4 bytes); the final overflow is (print_count + newlines * cols) / cols
exactly as on lines 313-314. -/
def display (cfg : Config) (cols : Nat) (raw : Option (List Dirent))
    (opendir_ok : Bool) (st : PeekState) : Option (PeekState × RenderOut) :=
  let scanned := scan_result cfg raw
  let d_length : Int := match scanned with | none => -1 | some l => (l.length : Int)
  let st1 := if d_length = -1 then { st with selected_name := [] } else st
  if opendir_ok = false then none
  else
    let sel := clamp_selected st1.selected d_length
    let pc_header := if cfg.show_dir then st1.d_current_name.length + 13 else 0
    let msg : Option (List Nat) :=
      if d_length < 0 then some MSG_CANT_SCAN
      else if d_length = 0 then some MSG_EMPTY
      else none
    let pc_msg := match msg with | some m => m.length + 4 | none => 0
    let entries := match scanned with | none => [] | some l => l
    let acc := render_loop cfg cols sel.toNat entries 0
      { print_count := pc_header + pc_msg, newline_count := 0,
        selected_name := st1.selected_name, rendered := [] }
    let total := acc.print_count + acc.newline_count * cols
    let overflow := total / cols
    some ({ d_current_name := st1.d_current_name, d_length := d_length,
            selected := sel, selected_name := acc.selected_name,
            last_overflow_count := overflow },
          { message := msg, entries := acc.rendered,
            newline_count := acc.newline_count,
            final_print_count := acc.print_count, overflow := overflow })

/-- append_to_cd (peek.c lines 90-104): join the current directory name and
a suffix with a slash; none models the CHECKBAD fatal exit when the joined
length would exceed PATH_MAX. -/
def append_to_cd (current suffix : List Nat) : Option (List Nat) :=
  if current.length + suffix.length + 2 > PATH_MAX then none
  else some (current ++ 0x2F :: suffix)

/-- cd (peek.c lines 106-121), after startup (d_current_name non-null).
The realpath system call is an abstract total function rp; peek.c ignores
its return value, so no failure path exists here beyond the PATH_MAX check
of append_to_cd.  An absolute target (leading slash) is canonicalized
directly; a relative target is appended to the current directory first.
In every case d_length is reset to 0 and selected to SELECTED_MIN = 0;
nothing checks that the target names a directory. -/
def cd (rp : List Nat → List Nat) (st : PeekState) (target : List Nat) :
    Option PeekState :=
  let newName : Option (List Nat) :=
    if target.head? = some 0x2F then some (rp target)
    else (append_to_cd st.d_current_name target).map rp
  newName.map fun n =>
    { st with d_current_name := n, d_length := 0, selected := 0 }

/-- What one iteration of the main input loop does after reading a key:
exit with a code, hand control to an external program (the edit, open and
execute actions), continue with a new state (rerender records whether
display runs before the next key is read), or die on a CHECKBAD. -/
inductive Effect where
  | exitCode (code : Nat)
  | handoff (prog : Option (List Nat)) (doFork : Bool)
  | next (st : PeekState) (rerender : Bool)
  | fatal
deriving DecidableEq

/-- The effect of a cd call inside the main loop: continue and rerender on
success, die on the PATH_MAX CHECKBAD. -/
def cd_effect (rp : List Nat → List Nat) (st : PeekState) (target : List Nat) :
    Effect :=
  match cd rp st target with
  | some st2 => Effect.next st2 true
  | none => Effect.fatal

/-- One iteration of the main keystroke loop (peek.c lines 392-431), reading
from a byte stream.  none models blocking on an exhausted stream.  The
default case re-reads without re-rendering (goto redo); ESC followed by any
byte other than the bracket returns 0; ESC bracket followed by a byte other
than A, B, C, D falls through the inner switch and re-renders with the state
unchanged. -/
def step (rp : List Nat → List Nat) (st : PeekState) : List Nat → Option Effect
  | [] => none
  | c :: rest =>
    if c = 0x45 ∨ c = 0x65 then
      some (Effect.handoff
        (some [47, 117, 115, 114, 47, 98, 105, 110, 47, 118, 105, 109]) false)
    else if c = 0x4F ∨ c = 0x6F then
      some (Effect.handoff
        (some [47, 117, 115, 114, 47, 98, 105, 110, 47, 120, 100, 103, 45,
               111, 112, 101, 110]) true)
    else if c = 0x58 ∨ c = 0x78 then some (Effect.handoff none false)
    else if c = 0x4B ∨ c = 0x6B then some (cd_effect rp st [0x2E, 0x2E])
    else if c = 0x4A ∨ c = 0x6A ∨ c = 0x0A then
      some (cd_effect rp st st.selected_name)
    else if c = 0x48 ∨ c = 0x68 then
      some (Effect.next { st with selected := st.selected - 1 } true)
    else if c = 0x4C ∨ c = 0x6C then
      some (Effect.next { st with selected := st.selected + 1 } true)
    else if c = 0x51 ∨ c = 0x71 then some (Effect.exitCode 0)
    else if c = ESC then
      match rest with
      | [] => none
      | b :: rest2 =>
        if b ≠ 0x5B then some (Effect.exitCode 0)
        else
          match rest2 with
          | [] => none
          | a :: _ =>
            if a = 0x41 then some (cd_effect rp st [0x2E, 0x2E])
            else if a = 0x42 then some (cd_effect rp st st.selected_name)
            else if a = 0x44 then
              some (Effect.next { st with selected := st.selected - 1 } true)
            else if a = 0x43 then
              some (Effect.next { st with selected := st.selected + 1 } true)
            else some (Effect.next st true)
    else some (Effect.next st false)

/-- Bytes of the show-cursor escape sequence. -/
def SHOW_CURSOR : List Nat := [ESC, 0x5B, 0x3F, 0x32, 0x35, 0x68]

/-- Bytes of the restore-position, erase-below, erase-line sequence used to
clear the last display. -/
def CLEAR_SEQ : List Nat :=
  [ESC, 0x5B, 0x75, ESC, 0x5B, 0x30, 0x4A, ESC, 0x5B, 0x32, 0x4B]

/-- The observable actions of restore_tcattr: the bytes written to the
terminal, and whether tcsetattr restored the saved attributes. -/
structure RestoreOut where
  out : List Nat
  restored_attrs : Bool
deriving DecidableEq

/-- restore_tcattr (peek.c lines 79-85): show the cursor, then either clear
the last display (when cfg_clear_trace is set) or print one newline for
each l from 0 to last_overflow_count inclusive, then restore the original
terminal attributes. -/
def restore_tcattr (clear_trace : Bool) (last_overflow_count : Nat) : RestoreOut :=
  { out := SHOW_CURSOR ++
      (if clear_trace then CLEAR_SEQ else List.replicate (last_overflow_count + 1) 0x0A),
    restored_attrs := true }

/-- The default configuration: dotfiles hidden, color on, everything else off. -/
def cfg0 : Config := ⟨false, true, false, false, false, false⟩

/-- A state browsing the root directory with nothing selected yet. -/
def st0 : PeekState := ⟨[47], 0, 0, [], 0⟩

/-- A state whose selected_name buffer still holds the bytes of "stale"
from a previous render. -/
def stStale : PeekState := ⟨[47], 0, 0, [115, 116, 97, 108, 101], 0⟩

/-- A regular-file entry named ".git". -/
def gitE : Dirent := ⟨[46, 103, 105, 116], 8, false⟩

/-- A regular-file entry named "abcde". -/
def abcdeE : Dirent := ⟨[97, 98, 99, 100, 101], 8, false⟩

/-- A regular-file entry named "a". -/
def aE : Dirent := ⟨[97], 8, false⟩

/-- A regular-file entry named "apple". -/
def appleE : Dirent := ⟨[97, 112, 112, 108, 101], 8, false⟩

/-- A regular-file entry named "Banana". -/
def bananaE : Dirent := ⟨[66, 97, 110, 97, 110, 97], 8, false⟩

/-- A regular-file entry named "cherry.txt". -/
def cherryE : Dirent := ⟨[99, 104, 101, 114, 114, 121, 46, 116, 120, 116], 8, false⟩

/-- The render output for an empty directory at 80 columns with no header:
the empty marker, no entries, and a print count of 11 (the marker, the
color reset and the trailing space). -/
def roEmpty : RenderOut := ⟨some MSG_EMPTY, [], 0, 11, 0⟩

lemma clamp_selected_bounds (s : Int) (n : Nat) (h : 1 ≤ n) :
    0 ≤ clamp_selected s (n : Int) ∧ (clamp_selected s (n : Int)).toNat < n := by
  unfold clamp_selected
  split_ifs <;> omega

lemma render_loop_selected_name (cfg : Config) (cols sel : Nat) :
    ∀ (l : List Dirent) (i : Nat) (acc : LoopAcc),
      (render_loop cfg cols sel l i acc).selected_name =
        if i ≤ sel ∧ sel < i + l.length then (l.getD (sel - i) default).d_name
        else acc.selected_name := by
  intro l
  induction l with
  | nil =>
      intro i acc
      simp only [render_loop, List.length_nil]
      rw [if_neg (by omega)]
  | cons e es ih =>
      intro i acc
      rw [render_loop, ih]
      by_cases hsel : i = sel
      · subst hsel
        rw [if_neg (by omega)]
        have hre : (render_entry cfg cols i acc i e).selected_name = e.d_name := by
          simp [render_entry]
        rw [hre, if_pos (by simp only [List.length_cons]; omega)]
        simp
      · have hre : (render_entry cfg cols sel acc i e).selected_name =
            acc.selected_name := by
          simp [render_entry, hsel]
        rw [hre]
        by_cases hc : i + 1 ≤ sel ∧ sel < i + 1 + es.length
        · rw [if_pos hc, if_pos (by simp only [List.length_cons]; omega)]
          have hidx : sel - i = (sel - (i + 1)) + 1 := by omega
          rw [hidx, List.getD_cons_succ]
        · rw [if_neg hc, if_neg (by simp only [List.length_cons]; omega)]

/-- C1: selection arithmetic is modulo the entry count.  With at least one
entry after filtering and sorting, rendering with the selection decremented
from 0 yields the last valid index and rendering with it incremented from
the last valid index yields 0; with an empty entry list the rendered
selection index is 0 for every starting value and no rendered entry is
highlighted. -/
theorem C1_selection_modulo :
    (∀ (cfg : Config) (cols : Nat) (raw : List Dirent) (st : PeekState),
      1 ≤ (sortEntries (List.filter (display_filter cfg) raw)).length →
      (display cfg cols (some raw) true { st with selected := 0 - 1 }).map
          (fun p => p.1.selected) =
        some (((sortEntries (List.filter (display_filter cfg) raw)).length : Int) - 1) ∧
      (display cfg cols (some raw) true
          { st with selected :=
            ((sortEntries (List.filter (display_filter cfg) raw)).length : Int) - 1 + 1 }).map
          (fun p => p.1.selected) = some 0) ∧
    (∀ (cfg : Config) (cols : Nat) (raw : List Dirent) (st : PeekState) (s : Int),
      sortEntries (List.filter (display_filter cfg) raw) = [] →
      (display cfg cols (some raw) true { st with selected := s }).map
          (fun p => p.1.selected) = some 0 ∧
      (display cfg cols (some raw) true { st with selected := s }).map
          (fun p => p.2.entries.filter fun er => er.highlighted) = some []) := by
  constructor
  · intro cfg cols raw st h
    have hne : ((sortEntries (List.filter (display_filter cfg) raw)).length : Int) ≠ -1 := by
      omega
    constructor
    · simp only [display, scan_result, Option.map_some', if_neg hne]
      simp only [Bool.true_eq_false, if_false, Option.map_some']
      rw [Option.some_inj]
      unfold clamp_selected
      split_ifs <;> omega
    · simp only [display, scan_result, Option.map_some', if_neg hne]
      simp only [Bool.true_eq_false, if_false, Option.map_some']
      rw [Option.some_inj]
      unfold clamp_selected
      split_ifs <;> omega
  · intro cfg cols raw st s hE
    constructor
    · simp only [display, scan_result, Option.map_some', hE]
      simp only [List.length_nil, Nat.cast_zero, Bool.true_eq_false, if_false,
        Option.map_some']
      simp [clamp_selected]
    · simp only [display, scan_result, Option.map_some', hE]
      simp only [List.length_nil, Nat.cast_zero, Bool.true_eq_false, if_false,
        Option.map_some']
      simp [render_loop]

/-- Witness for C1 at concrete inputs: one entry named "a", and an empty
directory, browsed from the root state. -/
theorem C1_selection_modulo_witness :
    (1 ≤ (sortEntries (List.filter (display_filter cfg0) [aE])).length ∧
      (display cfg0 80 (some [aE]) true { st0 with selected := 0 - 1 }).map
          (fun p => p.1.selected) =
        some (((sortEntries (List.filter (display_filter cfg0) [aE])).length : Int) - 1)) ∧
    (sortEntries (List.filter (display_filter cfg0) []) = [] ∧
      (display cfg0 80 (some []) true { st0 with selected := 5 }).map
          (fun p => p.1.selected) = some 0) :=
  ⟨⟨by decide, (C1_selection_modulo.1 cfg0 80 [aE] st0 (by decide)).1⟩,
   ⟨by decide, (C1_selection_modulo.2 cfg0 80 [] st0 5 (by decide)).1⟩⟩

/-- Modelled from the spec: the rendered width the specification assigns to
an entry, name length plus one for the indicator only when indicators are
enabled, plus the delimiter length.  This follows the wording of the claim;
the code (wrap_break) instead adds the one unconditionally. -/
def rendered_width_spec (cfg : Config) (e : Dirent) : Nat :=
  e.d_name.length +
    (if cfg.indicate = true ∧ (get_entry_type e).2 ≠ 0 then 1 else 0) +
    ENTRY_DELIM_LEN

/-- Reference column-accounting recurrence for the wrap points the code
produces: walking the entries with a running print count, a break happens
before an entry exactly when wrap_break fires, the count resets to 0 on a
break, and each entry then adds its printed name width, its indicator cell
when indicators are enabled and present, and the delimiter. -/
def sim_breaks (cfg : Config) (cols : Nat) : Nat → List Dirent → List Bool
  | _, [] => []
  | pc, e :: es =>
    wrap_break pc cols e.d_name.length ::
      sim_breaks cfg cols
        ((if wrap_break pc cols e.d_name.length then 0 else pc) +
          printed_name_width cfg e.d_name +
          (if cfg.indicate = true ∧ (get_entry_type e).2 ≠ 0 then 1 else 0) +
          ENTRY_DELIM_LEN) es

lemma render_loop_breaks (cfg : Config) (cols sel : Nat) :
    ∀ (l : List Dirent) (i : Nat) (acc : LoopAcc),
      (render_loop cfg cols sel l i acc).rendered.map (fun er => er.brokeBefore) =
        acc.rendered.map (fun er => er.brokeBefore) ++
          sim_breaks cfg cols acc.print_count l := by
  intro l
  induction l with
  | nil => intro i acc; simp [render_loop, sim_breaks]
  | cons e es ih =>
      intro i acc
      rw [render_loop, ih]
      simp only [render_entry, sim_breaks]
      simp [List.map_append]

/-- C3 counterexample: at 8 columns, with indicators disabled and a single
entry named "abcde", the renderer emits a line break before the entry
(its rendered printing would reach column 8 counting the reserved indicator
cell), although the rendered width the claim defines is 7 and appending it
to the empty line would not exceed the 8 columns.  The claim's break
condition is therefore false of the code at this input. -/
theorem C3_counterexample :
    (display cfg0 8 (some [abcdeE]) true st0).map
        (fun p => p.2.entries.map fun er => er.brokeBefore) = some [true] ∧
    rendered_width_spec cfg0 abcdeE = 7 ∧
    ¬ (0 + rendered_width_spec cfg0 abcdeE > 8) := by
  refine ⟨by decide, by decide, by decide⟩

/-- C3 amended: the wrap points of a render are deterministic and equal the
reference simulation sim_breaks, whose break condition is that the running
print count plus the entry name length plus the delimiter length plus one
reserved indicator cell (reserved whether or not indicators are enabled)
reaches or exceeds the column count.  The simulation starts from the header
print count when the path header is enabled and 0 otherwise. -/
theorem C3_wrap_points (cfg : Config) (cols : Nat) (raw : List Dirent)
    (st : PeekState) :
    (display cfg cols (some raw) true st).map
        (fun p => p.2.entries.map fun er => er.brokeBefore) =
      some (sim_breaks cfg cols
        (if cfg.show_dir then st.d_current_name.length + 13 else 0)
        (sortEntries (List.filter (display_filter cfg) raw))) := by
  rcases hE : sortEntries (List.filter (display_filter cfg) raw) with _ | ⟨e, es⟩
  · simp only [display, scan_result, Option.map_some', hE]
    simp only [List.length_nil, Nat.cast_zero, Bool.true_eq_false, if_false,
      Option.map_some']
    simp [render_loop, sim_breaks]
  · have hlen : (sortEntries (List.filter (display_filter cfg) raw)).length =
        es.length + 1 := by
      rw [hE]; rfl
    have hne : ((sortEntries (List.filter (display_filter cfg) raw)).length : Int) ≠ -1 := by
      omega
    have hlt : ¬ (((sortEntries (List.filter (display_filter cfg) raw)).length : Int) < 0) := by
      omega
    have hz : ¬ (((sortEntries (List.filter (display_filter cfg) raw)).length : Int) = 0) := by
      omega
    simp only [display, scan_result, Option.map_some', if_neg hne, if_neg hlt, if_neg hz,
      Bool.true_eq_false, if_false]
    rw [render_loop_breaks]
    simp [hE]

/-- The proposition claim C4 asserts: whenever directory enumeration fails,
the render succeeds (the program keeps running) and shows the unreadable
marker in place of entries. -/
def c4_claim : Prop :=
  ∀ (cfg : Config) (cols : Nat) (ok : Bool) (st : PeekState),
    (display cfg cols none ok st).isSome = true ∧
    (display cfg cols none ok st).map (fun p => p.2.message) =
      some (some MSG_CANT_SCAN)

/-- C4 counterexample: with the default configuration at 80 columns, when
scandir fails and the vestigial opendir call fails too — which is what a
permission failure produces, since both calls need read access to the same
directory — display hits the CHECKBAD on line 223 and the process
terminates instead of rendering the marker. -/
theorem C4_counterexample : ¬ c4_claim := by
  intro h
  exact absurd (h cfg0 80 false st0).1 (by decide)

/-- C4 amended: when scandir fails but the opendir call still succeeds
(possible when scandir fails for a reason other than readability, such as
allocation failure), the failure is recoverable: display returns, renders
the in-band marker MSG_CANT_SCAN in place of the entries, and the program
continues; but when opendir also fails — the typical permission case — the
program terminates fatally. -/
theorem C4_unreadable_marker (cfg : Config) (cols : Nat) (st : PeekState) :
    (display cfg cols none true st).isSome = true ∧
    (display cfg cols none true st).map (fun p => p.2.message) =
      some (some MSG_CANT_SCAN) ∧
    (display cfg cols none true st).map (fun p => p.2.entries) = some [] ∧
    (display cfg cols none false st) = none := by
  refine ⟨?_, ?_, ?_, rfl⟩ <;>
    simp [display, scan_result, render_loop]

/-- C5: the directory containing exactly apple, Banana and cherry.txt, with
dotfiles hidden, renders in the order Banana, apple, cherry.txt — the
byte-wise alphabetical order in which every capital letter sorts before
every lowercase letter. -/
theorem C5_sort_order :
    (display cfg0 80 (some [appleE, bananaE, cherryE]) true st0).map
        (fun p => p.2.entries.map fun er => er.name) =
      some [[66, 97, 110, 97, 110, 97], [97, 112, 112, 108, 101],
            [99, 104, 101, 114, 114, 121, 46, 116, 120, 116]] ∧
    strcmpLe bananaE.d_name appleE.d_name = true ∧
    strcmpLe appleE.d_name cherryE.d_name = true := by
  refine ⟨by decide, by decide, by decide⟩

/-- C6: for every canonicalization function, state and target byte string,
a completed cd leaves the selection index at 0 and d_length at 0 (so the
next render re-enumerates from scratch); and cd completes for every target
whose joined path fits in PATH_MAX — no check that the target names a
directory is made, the target being an arbitrary byte string. -/
theorem C6_cd_resets (rp : List Nat → List Nat) (st : PeekState)
    (target : List Nat) :
    (∀ st2 : PeekState, cd rp st target = some st2 →
      st2.selected = 0 ∧ st2.d_length = 0) ∧
    (st.d_current_name.length + target.length + 2 ≤ PATH_MAX →
      (cd rp st target).isSome = true) := by
  constructor
  · intro st2 h
    unfold cd at h
    rw [Option.map_eq_some'] at h
    obtain ⟨n, -, h2⟩ := h
    rw [← h2]
    exact ⟨rfl, rfl⟩
  · intro hle
    unfold cd append_to_cd
    by_cases hh : target.head? = some 0x2F
    · simp [hh]
    · rw [if_neg hh, if_neg (by omega)]
      simp

/-- Witness for C6 at concrete inputs: changing from the root state to the
relative target "s". -/
theorem C6_cd_resets_witness :
    ((⟨[47, 47, 115], 0, 0, [], 0⟩ : PeekState).selected = 0 ∧
      (⟨[47, 47, 115], 0, 0, [], 0⟩ : PeekState).d_length = 0) ∧
    (cd (fun x => x) st0 [115]).isSome = true :=
  ⟨(C6_cd_resets (fun x => x) st0 [115]).1 ⟨[47, 47, 115], 0, 0, [], 0⟩ (by decide),
   (C6_cd_resets (fun x => x) st0 [115]).2 (by decide)⟩

/-- C8: terminal restoration always restores the saved attributes and
starts its output by re-showing the cursor; with clear-on-exit configured
it emits exactly the clear sequence, and otherwise it emits exactly
last_overflow_count + 1 newline bytes to advance past the rendered block. -/
theorem C8_restore_behavior (clear : Bool) (n : Nat) :
    (restore_tcattr clear n).restored_attrs = true ∧
    (restore_tcattr clear n).out.take 6 = SHOW_CURSOR ∧
    (restore_tcattr true n).out = SHOW_CURSOR ++ CLEAR_SEQ ∧
    (restore_tcattr false n).out = SHOW_CURSOR ++ List.replicate (n + 1) 0x0A ∧
    (restore_tcattr false n).out.count 0x0A = n + 1 := by
  refine ⟨rfl, ?_, rfl, rfl, ?_⟩
  · cases clear <;> simp [restore_tcattr, SHOW_CURSOR, CLEAR_SEQ, ESC,
      List.take_append_of_le_length, List.replicate]
  · simp [restore_tcattr, SHOW_CURSOR, ESC, List.count_append]

/-- The proposition claim C7 asserts: after every successful render the
selected_name buffer holds exactly the name of the entry at the current
selection index, and is empty when the directory could not be scanned. -/
def c7_claim : Prop :=
  ∀ (cfg : Config) (cols : Nat) (raw : Option (List Dirent)) (st : PeekState)
    (st2 : PeekState) (ro : RenderOut),
    display cfg cols raw true st = some (st2, ro) →
    (raw = none → st2.selected_name = []) ∧
    (∀ l, raw = some l →
      ∃ h : st2.selected.toNat <
          (sortEntries (List.filter (display_filter cfg) l)).length,
        st2.selected_name =
          ((sortEntries (List.filter (display_filter cfg) l)).get
            ⟨st2.selected.toNat, h⟩).d_name)

/-- C7 counterexample: rendering an empty directory from a state whose
selected_name buffer still holds "stale" succeeds and leaves the buffer
holding "stale", although the entry list has no entry at the selection
index at all — the entry loop never runs, so the buffer is neither the name
of a current entry nor empty. -/
theorem C7_counterexample : ¬ c7_claim := by
  intro h
  obtain ⟨-, h2⟩ := h cfg0 80 (some []) stStale stStale roEmpty (by decide)
  obtain ⟨hlt, -⟩ := h2 [] rfl
  exact absurd hlt (by decide)

/-- C7 amended: after a successful render, selected_name is empty when the
scan failed; it equals the name of the entry at the clamped selection index
when the filtered entry list is non-empty; and when the filtered entry list
is empty it is left unchanged from the previous render. -/
theorem C7_selected_name (cfg : Config) (cols : Nat) (raw : Option (List Dirent))
    (st : PeekState) :
    (raw = none →
      (display cfg cols raw true st).map (fun p => p.1.selected_name) = some []) ∧
    (∀ l, raw = some l →
      (sortEntries (List.filter (display_filter cfg) l) = [] →
        (display cfg cols raw true st).map (fun p => p.1.selected_name) =
          some st.selected_name) ∧
      (sortEntries (List.filter (display_filter cfg) l) ≠ [] →
        (display cfg cols raw true st).map (fun p => p.1.selected_name) =
          some ((sortEntries (List.filter (display_filter cfg) l)).getD
            (clamp_selected st.selected
              ((sortEntries (List.filter (display_filter cfg) l)).length : Int)).toNat
            default).d_name)) := by
  constructor
  · intro h
    subst h
    simp [display, scan_result, render_loop]
  · intro l h
    subst h
    constructor
    · intro hE
      simp only [display, scan_result, Option.map_some', hE]
      simp only [List.length_nil, Nat.cast_zero, Bool.true_eq_false, if_false,
        Option.map_some']
      simp [render_loop]
    · intro hne0
      have hlen1 : 1 ≤ (sortEntries (List.filter (display_filter cfg) l)).length := by
        cases hc : sortEntries (List.filter (display_filter cfg) l) with
        | nil => exact absurd hc hne0
        | cons e es => simp only [List.length_cons]; omega
      have hne : ((sortEntries (List.filter (display_filter cfg) l)).length : Int) ≠ -1 := by
        omega
      have hlt : ¬ (((sortEntries (List.filter (display_filter cfg) l)).length : Int) < 0) := by
        omega
      have hz : ¬ (((sortEntries (List.filter (display_filter cfg) l)).length : Int) = 0) := by
        omega
      have hbd := clamp_selected_bounds st.selected _ hlen1
      simp only [display, scan_result, Option.map_some', if_neg hne, if_neg hlt,
        if_neg hz, Bool.true_eq_false, if_false]
      rw [render_loop_selected_name]
      rw [if_pos ⟨Nat.zero_le _, by omega⟩, Nat.sub_zero]

/-- Witness for C7 at concrete inputs: a single entry named "a" rendered
from the state with a stale buffer. -/
theorem C7_selected_name_witness :
    (sortEntries (List.filter (display_filter cfg0) [aE]) ≠ []) ∧
    (display cfg0 80 (some [aE]) true stStale).map (fun p => p.1.selected_name) =
      some ((sortEntries (List.filter (display_filter cfg0) [aE])).getD
        (clamp_selected stStale.selected
          ((sortEntries (List.filter (display_filter cfg0) [aE])).length : Int)).toNat
        default).d_name :=
  ⟨by decide,
   ((C7_selected_name cfg0 80 (some [aE]) stStale).2 [aE] rfl).2 (by decide)⟩

/-- C9: rendering a directory whose filtered entry list is empty leaves
selected_name unchanged from the previous render, and each of the keys J,
j, Enter and Down-arrow then makes the main loop attempt a directory change
to that stale name (the cd_effect on the stale buffer) instead of doing
nothing. -/
theorem C9_stale_name_after_empty_render (cfg : Config) (cols : Nat)
    (raw : List Dirent) (st : PeekState) (rp : List Nat → List Nat)
    (rest : List Nat)
    (hempty : List.filter (display_filter cfg) raw = []) :
    (display cfg cols (some raw) true st).map (fun p => p.1.selected_name) =
      some st.selected_name ∧
    (∀ (st2 : PeekState) (ro : RenderOut),
      display cfg cols (some raw) true st = some (st2, ro) →
      step rp st2 (0x4A :: rest) = some (cd_effect rp st2 st.selected_name) ∧
      step rp st2 (0x6A :: rest) = some (cd_effect rp st2 st.selected_name) ∧
      step rp st2 (0x0A :: rest) = some (cd_effect rp st2 st.selected_name) ∧
      step rp st2 (ESC :: 0x5B :: 0x42 :: rest) =
        some (cd_effect rp st2 st.selected_name)) := by
  have hsorted : sortEntries (List.filter (display_filter cfg) raw) = [] := by
    rw [hempty]; rfl
  have hpart1 : (display cfg cols (some raw) true st).map
      (fun p => p.1.selected_name) = some st.selected_name := by
    simp only [display, scan_result, Option.map_some', hsorted]
    simp only [List.length_nil, Nat.cast_zero, Bool.true_eq_false, if_false,
      Option.map_some']
    simp [render_loop]
  refine ⟨hpart1, ?_⟩
  intro st2 ro h
  rw [h] at hpart1
  simp only [Option.map_some', Option.some_inj] at hpart1
  refine ⟨?_, ?_, ?_, ?_⟩ <;> simp [step, ESC, hpart1]

/-- Witness for C9 at concrete inputs: a directory containing only ".git"
(filtered out under the default configuration) rendered from the state
whose buffer holds "stale", followed by the j key. -/
theorem C9_stale_name_witness :
    List.filter (display_filter cfg0) [gitE] = [] ∧
    step (fun x => x) stStale [0x6A] =
      some (cd_effect (fun x => x) stStale stStale.selected_name) :=
  ⟨by decide,
   ((C9_stale_name_after_empty_render cfg0 80 [gitE] stStale (fun x => x) []
      (by decide)).2 stStale roEmpty (by decide)).2.1⟩

/-- C10: after reading ESC, any next byte other than the opening bracket
terminates the program normally with exit code 0; and the three-byte
sequence ESC bracket X with X none of A, B, C, D is consumed with the state
unchanged but still triggers a re-render. -/
theorem C10_esc_dispatch (rp : List Nat → List Nat) (st : PeekState)
    (b a : Nat) (rest rest2 : List Nat)
    (hb : b ≠ 0x5B) (ha : a ≠ 0x41 ∧ a ≠ 0x42 ∧ a ≠ 0x43 ∧ a ≠ 0x44) :
    step rp st (ESC :: b :: rest) = some (Effect.exitCode 0) ∧
    step rp st (ESC :: 0x5B :: a :: rest2) = some (Effect.next st true) := by
  obtain ⟨h1, h2, h3, h4⟩ := ha
  constructor
  · simp [step, ESC, hb]
  · simp [step, ESC, h1, h2, h3, h4]

/-- Witness for C10 at concrete inputs: the byte 120 after ESC, and after
ESC bracket. -/
theorem C10_esc_dispatch_witness :
    ((120 : Nat) ≠ 0x5B) ∧
    step (fun x => x) st0 (ESC :: 120 :: []) = some (Effect.exitCode 0) ∧
    step (fun x => x) st0 (ESC :: 0x5B :: 120 :: []) = some (Effect.next st0 true) :=
  ⟨by decide,
   (C10_esc_dispatch (fun x => x) st0 120 120 [] [] (by decide)
     ⟨by decide, by decide, by decide, by decide⟩).1,
   (C10_esc_dispatch (fun x => x) st0 120 120 [] [] (by decide)
     ⟨by decide, by decide, by decide, by decide⟩).2⟩

end Peek
